import Mathlib

/-!
Shallow embedding of `mining_core/base/model_updater.py` (class `ModelUpdater`).

State modelled explicitly:
  * the local models directory is a list of file names (`os.listdir`);
  * `self.config` is a pair of association lists, the `model_configs` and
    `vae_configs` partitions (Python dicts keyed by model name);
  * each of the two catalog URLs answers with a network error, a non-list
    JSON payload, or a JSON list of records (`SourceResp`).

Observable actions of a pass (downloads started, configuration inserts,
printed status lines) are recorded as a list of `Event`s, and an uncaught
exception propagating out of a pass is an `Option String` in the result.
-/

/-- One raw catalog record. `name`, `file_url` and `size_mb` are the fields
read by the updater; `vae` records whether the raw JSON object carries a
`vae` key (the code tests key presence: `if 'vae' in model_info`). -/
structure ModelInfo where
  name : String
  file_url : String
  size_mb : Nat
  vae : Bool
deriving DecidableEq

/-- What one catalog URL answers: a `requests` exception, a JSON payload that
is not a list, or a JSON list of records. -/
inductive SourceResp where
  | err : SourceResp
  | nonList : SourceResp
  | list : List ModelInfo → SourceResp
deriving DecidableEq

/-- The two partitions of `self.config` touched by the updater. -/
structure Config where
  model_configs : List (String × ModelInfo)
  vae_configs : List (String × ModelInfo)
deriving DecidableEq

/-- Select a partition: `true` picks `vae_configs`, `false` picks
`model_configs`. -/
def Config.part (c : Config) (vae : Bool) : List (String × ModelInfo) :=
  if vae then c.vae_configs else c.model_configs

/-- Mutable state seen by the updater: the models directory listing and the
configuration store. -/
structure UState where
  localFiles : List String
  config : Config
deriving DecidableEq

/-- Observable actions of a pass: a file transfer started by `download_file`,
an insert into one of the two configuration partitions, or a printed status
line. -/
inductive Event where
  | transfer (name url : String)
  | mergeModel (name : String)
  | mergeVae (name : String)
  | msg (s : String)
deriving DecidableEq

/-- The loop body of `fetch_remote_model_list`: visit the sources in order,
return `None` on a `RequestException`, log-and-skip a payload that is not a
list, and extend the accumulator with each list payload. -/
def fetchLoop : List SourceResp → List ModelInfo → Option (List ModelInfo)
  | [], acc => some acc
  | SourceResp.err :: _, _ => none
  | SourceResp.nonList :: rest, acc => fetchLoop rest acc
  | SourceResp.list l :: rest, acc => fetchLoop rest (acc ++ l)

/-- `ModelUpdater.fetch_remote_model_list`: the combined list from
`model_config_url` (first) and `vae_config_url` (second). -/
def fetch_remote_model_list (r1 r2 : SourceResp) : Option (List ModelInfo) :=
  fetchLoop [r1, r2] []

/-- The fixed model-file extension; 12 characters, the final dot included. -/
def safetensorsExt : String := ".safetensors"

/-- Python `file_name.endswith('.safetensors')`: the last 12 characters are
the extension. -/
def endsWithSafetensors (f : String) : Bool :=
  decide (f.toList.reverse.take 12 = safetensorsExt.toList.reverse)

/-- Python `file_name.rsplit('.', 1)[0]` applied to a name that ends with the
extension: everything before the last dot, which for such names is the name
minus its final 12 characters (the extension contains the only dot that can
be last, since `safetensors` has no dot). -/
def stripExt (f : String) : String :=
  String.mk (f.toList.take (f.toList.length - 12))

/-- `local_model_names` inside `is_update_required`: stems of the local files
that carry the extension. -/
def localModelNames (files : List String) : List String :=
  (files.filter (fun f => endsWithSafetensors f)).map stripExt

/-- `ModelUpdater.is_update_required`: true when some remote name is missing
from the local stems (`missing_models = remote - local` nonempty). -/
def is_update_required (s : UState) (l : List ModelInfo) : Bool :=
  l.any (fun m => decide (m.name ∉ localModelNames s.localFiles))

/-- Modelled from the spec: `download_file` lives in
`mining_core/utils/file_utils.py`, which is not among the sources. Its
contract (§6) is `fetch(destination_dir, url, file_name, expected_size_bytes)
-> success|failure`; §4.1 records that the original single-artifact download
call has no internal retry or isolation and that one broken URL aborts a
multi-artifact sync, so a failed transfer propagates as an exception
(`Except.error`) and a successful one creates the file in the directory.
Success is decided by the oracle `dlOk` on the URL. -/
def download_file (dlOk : String → Bool) (files : List String)
    (url file_name : String) : Except String (List String) :=
  if dlOk url then Except.ok (files ++ [file_name]) else Except.error url

/-- `ModelUpdater.download_single_model`: skip when
`models_directory/name.safetensors` already exists, otherwise call
`download_file` (which may raise). -/
def download_single_model (dlOk : String → Bool) (s : UState) (m : ModelInfo) :
    Except String (UState × List Event) :=
  if (m.name ++ safetensorsExt) ∈ s.localFiles then Except.ok (s, [])
  else
    match download_file dlOk s.localFiles m.file_url (m.name ++ safetensorsExt) with
    | Except.ok fs => Except.ok ({ s with localFiles := fs },
        [Event.transfer m.name m.file_url])
    | Except.error e => Except.error e

/-- `ModelUpdater.update_config_single_model`: classify by presence of the
`vae` key, then insert into the chosen partition only when the name is not
already a key there. -/
def update_config_single_model (c : Config) (m : ModelInfo) : Config × List Event :=
  if m.vae then
    if (c.vae_configs.lookup m.name).isSome then (c, [])
    else ({ c with vae_configs := c.vae_configs ++ [(m.name, m)] },
      [Event.mergeVae m.name])
  else
    if (c.model_configs.lookup m.name).isSome then (c, [])
    else ({ c with model_configs := c.model_configs ++ [(m.name, m)] },
      [Event.mergeModel m.name])

/-- `ModelUpdater.download_new_models`: call `download_single_model` on every
record in order; an exception raised by one download propagates and stops the
loop (no try/except around the call). -/
def download_new_models (dlOk : String → Bool) (s : UState) :
    List ModelInfo → UState × List Event × Option String
  | [] => (s, [], none)
  | m :: rest =>
    match download_single_model dlOk s m with
    | Except.ok (s1, e1) =>
      ((download_new_models dlOk s1 rest).1,
       e1 ++ (download_new_models dlOk s1 rest).2.1,
       (download_new_models dlOk s1 rest).2.2)
    | Except.error e => (s, [], some e)

/-- `ModelUpdater.update_configs`: fold `update_config_single_model` over the
whole remote list. -/
def update_configs (c : Config) : List ModelInfo → Config × List Event
  | [] => (c, [])
  | m :: rest =>
    ((update_configs (update_config_single_model c m).1 rest).1,
     (update_config_single_model c m).2
       ++ (update_configs (update_config_single_model c m).1 rest).2)

def couldNotFetchMsg : String := "Could not fetch remote model list. Skipping update."
def noUpdateMsg : String := "No model updates required."
def completedMsg : String := "Model updates completed."
def notFoundMsg (model_id : String) : String :=
  "Model " ++ model_id ++ " not found in the remote list."
def completedOneMsg (n : String) : String :=
  "Model update completed for " ++ n ++ "."

/-- `ModelUpdater.update_models`: `if not remote_model_list` is true both for
`None` (a source raised) and for an empty combined list, and both print the
same skip line; otherwise download then merge when something is missing. -/
def update_models (dlOk : String → Bool) (r1 r2 : SourceResp) (s : UState) :
    UState × List Event × Option String :=
  match fetch_remote_model_list r1 r2 with
  | none => (s, [Event.msg couldNotFetchMsg], none)
  | some l =>
    if l.isEmpty then (s, [Event.msg couldNotFetchMsg], none)
    else if is_update_required s l then
      match download_new_models dlOk s l with
      | (s1, evs, some e) => (s1, evs, some e)
      | (s1, evs, none) =>
        ({ s1 with config := (update_configs s1.config l).1 },
         evs ++ (update_configs s1.config l).2 ++ [Event.msg completedMsg], none)
    else (s, [Event.msg noUpdateMsg], none)

/-- `ModelUpdater.update_single_model`: same fetch guard, then
`next((model for model in remote_model_list if model['name'] == model_id), None)`
(first match) and, when found, one download plus one config merge. -/
def update_single_model (dlOk : String → Bool) (r1 r2 : SourceResp) (s : UState)
    (model_id : String) : UState × List Event × Option String :=
  match fetch_remote_model_list r1 r2 with
  | none => (s, [Event.msg couldNotFetchMsg], none)
  | some l =>
    if l.isEmpty then (s, [Event.msg couldNotFetchMsg], none)
    else
      match l.find? (fun m => m.name == model_id) with
      | some m =>
        match download_single_model dlOk s m with
        | Except.ok (s1, e1) =>
          ({ s1 with config := (update_config_single_model s1.config m).1 },
           e1 ++ (update_config_single_model s1.config m).2
             ++ [Event.msg (completedOneMsg m.name)], none)
        | Except.error e => (s, [], some e)
      | none => (s, [Event.msg (notFoundMsg model_id)], none)

/-! ### Concrete fixtures used to evaluate the operations -/

/-- Empty configuration store. -/
def emptyConfig : Config := ⟨[], []⟩

/-- Empty directory, empty configuration. -/
def emptyState : UState := ⟨[], emptyConfig⟩

/-- Transfer oracle under which every URL succeeds. -/
def allOk : String → Bool := fun _ => true

/-- Transfer oracle under which exactly the URL `uB` fails. -/
def failB : String → Bool := fun u => !(u == "uB")

def mA : ModelInfo := ⟨"A", "uA", 1, false⟩
def mB : ModelInfo := ⟨"B", "uB", 2, false⟩
def mC : ModelInfo := ⟨"C", "uC", 3, false⟩

/-- The spec's model scenario record. -/
def m1 : ModelInfo := ⟨"m1", "http://x/m1", 10, false⟩

/-- The spec's VAE scenario record. -/
def v1 : ModelInfo := ⟨"v1", "http://x/v1", 5, true⟩

/-- Directory already holding `v1.safetensors`, empty configuration. -/
def v1State : UState := ⟨["v1.safetensors"], emptyConfig⟩

/-- A remote record named `A` with fields different from `mA`. -/
def mA2 : ModelInfo := ⟨"A", "uA2", 9, false⟩

/-- State whose configuration already binds `A` to `mA`. -/
def stateWithA : UState := ⟨[], ⟨[("A", mA)], []⟩⟩

/-- The state after one successful full pass over the catalog `[m1]`
starting from `emptyState`. -/
def m1State : UState := ⟨["m1.safetensors"], ⟨[("m1", m1)], []⟩⟩

def mP : ModelInfo := ⟨"p", "up", 1, false⟩
def mQ : ModelInfo := ⟨"q", "uq", 1, false⟩

/-- Directory already holding `p.safetensors`, empty configuration. -/
def pState : UState := ⟨["p.safetensors"], emptyConfig⟩

/-! ### Association-list helpers -/

/-- A key bound in the front part of an appended association list keeps its
binding. -/
theorem lookup_append_left {l1 l2 : List (String × ModelInfo)} {k : String}
    {v : ModelInfo} (h : l1.lookup k = some v) : (l1 ++ l2).lookup k = some v := by
  induction l1 with
  | nil => simp [List.lookup] at h
  | cons a rest ih =>
    rcases a with ⟨ka, va⟩
    cases hb : k == ka with
    | true => simp [List.lookup, hb] at h ⊢; exact h
    | false =>
      simp only [List.cons_append, List.lookup, hb] at h ⊢
      exact ih h

/-- Appending a binding for an unbound key binds it. -/
theorem lookup_append_self {l : List (String × ModelInfo)} {k : String}
    (v : ModelInfo) (h : l.lookup k = none) : (l ++ [(k, v)]).lookup k = some v := by
  induction l with
  | nil => simp [List.lookup]
  | cons a rest ih =>
    rcases a with ⟨ka, va⟩
    cases hb : k == ka with
    | true => simp [List.lookup, hb] at h
    | false =>
      simp only [List.cons_append, List.lookup, hb] at h ⊢
      exact ih h

/-! ### Config-merge helpers -/

/-- A configuration merge never changes the binding of a key that is already
bound, in either partition. -/
theorem ucsm_preserves (c : Config) (m : ModelInfo) (p : Bool) (k : String)
    (v : ModelInfo) (h : (c.part p).lookup k = some v) :
    ((update_config_single_model c m).1.part p).lookup k = some v := by
  unfold update_config_single_model
  cases hv : m.vae with
  | true =>
    by_cases hs : (c.vae_configs.lookup m.name).isSome
    · simpa [hv, hs] using h
    · cases p with
      | true =>
        have h' : c.vae_configs.lookup k = some v := by simpa [Config.part] using h
        simp [hv, hs, Config.part, lookup_append_left h']
      | false => simpa [hv, hs, Config.part] using h
  | false =>
    by_cases hs : (c.model_configs.lookup m.name).isSome
    · simpa [hv, hs] using h
    · cases p with
      | true => simpa [hv, hs, Config.part] using h
      | false =>
        have h' : c.model_configs.lookup k = some v := by simpa [Config.part] using h
        simp [hv, hs, Config.part, lookup_append_left h']

/-- After merging a record, its name is bound in the partition selected by
its `vae` marker. -/
theorem ucsm_member (c : Config) (m : ModelInfo) :
    (((update_config_single_model c m).1.part m.vae).lookup m.name).isSome := by
  unfold update_config_single_model
  cases hv : m.vae with
  | true =>
    cases hs : c.vae_configs.lookup m.name with
    | some v => simp [hv, hs, Config.part]
    | none => simp [hv, hs, Config.part, lookup_append_self m hs]
  | false =>
    cases hs : c.model_configs.lookup m.name with
    | some v => simp [hv, hs, Config.part]
    | none => simp [hv, hs, Config.part, lookup_append_self m hs]

/-- The events of one configuration merge are merge events for the record's
own name. -/
theorem ucsm_events (c : Config) (m : ModelInfo) :
    ∀ e ∈ (update_config_single_model c m).2,
      e = Event.mergeModel m.name ∨ e = Event.mergeVae m.name := by
  unfold update_config_single_model
  cases hv : m.vae with
  | true =>
    by_cases hs : (c.vae_configs.lookup m.name).isSome <;> simp [hv, hs]
  | false =>
    by_cases hs : (c.model_configs.lookup m.name).isSome <;> simp [hv, hs]

/-- Merging a whole list never changes the binding of a key that is already
bound. -/
theorem uc_preserves : ∀ (l : List ModelInfo) (c : Config) (p : Bool)
    (k : String) (v : ModelInfo), (c.part p).lookup k = some v →
    ((update_configs c l).1.part p).lookup k = some v := by
  intro l
  induction l with
  | nil => intro c p k v h; simpa [update_configs] using h
  | cons m rest ih =>
    intro c p k v h
    simpa [update_configs] using ih _ p k v (ucsm_preserves c m p k v h)

/-- After merging a whole list, every record of the list has its name bound
in its own partition. -/
theorem uc_member : ∀ (l : List ModelInfo) (c : Config) (m : ModelInfo),
    m ∈ l → (((update_configs c l).1.part m.vae).lookup m.name).isSome := by
  intro l
  induction l with
  | nil => intro c m h; cases h
  | cons a rest ih =>
    intro c m h
    rcases List.mem_cons.mp h with h1 | h2
    · subst h1
      have hm := ucsm_member c m
      rcases Option.isSome_iff_exists.mp hm with ⟨v, hv⟩
      simpa [update_configs] using
        Option.isSome_iff_exists.mpr ⟨v, uc_preserves rest _ m.vae m.name v hv⟩
    · simpa [update_configs] using ih _ m h2

/-- Merging a whole list produces only merge events, each named by a record
of the list. -/
theorem uc_events : ∀ (l : List ModelInfo) (c : Config),
    ∀ e ∈ (update_configs c l).2, ∃ m ∈ l,
      e = Event.mergeModel m.name ∨ e = Event.mergeVae m.name := by
  intro l
  induction l with
  | nil => intro c e h; simp [update_configs] at h
  | cons a rest ih =>
    intro c e h
    simp only [update_configs, List.mem_append] at h
    rcases h with h1 | h2
    · exact ⟨a, List.mem_cons_self a rest, ucsm_events c a e h1⟩
    · rcases ih _ e h2 with ⟨m, hm, hme⟩
      exact ⟨m, List.mem_cons_of_mem a hm, hme⟩

/-! ### Extension and inventory helpers -/

/-- Appending the extension and stripping it again round-trips. -/
theorem stripExt_append (n : String) : stripExt (n ++ safetensorsExt) = n := by
  unfold stripExt
  have h1 : (n ++ safetensorsExt).toList = n.toList ++ safetensorsExt.toList := rfl
  rw [h1, List.length_append]
  have h2 : safetensorsExt.toList.length = 12 := rfl
  rw [h2, Nat.add_sub_cancel]
  rw [List.take_left]
  rfl

/-- A name with the extension appended passes the extension test. -/
theorem endsWithSafetensors_append (n : String) :
    endsWithSafetensors (n ++ safetensorsExt) = true := by
  unfold endsWithSafetensors
  have h1 : (n ++ safetensorsExt).toList = n.toList ++ safetensorsExt.toList := rfl
  rw [h1, List.reverse_append]
  have h2 : safetensorsExt.toList.reverse.length = 12 := rfl
  rw [decide_eq_true_iff]
  rw [← h2, List.take_left]

/-- The stem of a present model file is among the local model names. -/
theorem mem_localModelNames {files : List String} {n : String}
    (h : (n ++ safetensorsExt) ∈ files) : n ∈ localModelNames files := by
  unfold localModelNames
  refine List.mem_map.mpr ⟨n ++ safetensorsExt, ?_, stripExt_append n⟩
  exact List.mem_filter.mpr ⟨h, endsWithSafetensors_append n⟩

/-- When every remote record's file is present locally, no update is
required. -/
theorem is_update_required_eq_false {s : UState} {l : List ModelInfo}
    (h : ∀ m ∈ l, (m.name ++ safetensorsExt) ∈ s.localFiles) :
    is_update_required s l = false := by
  unfold is_update_required
  rw [List.any_eq_false]
  intro m hm
  simp only [decide_eq_true_eq, Decidable.not_not]
  exact mem_localModelNames (h m hm)

/-- A required update means the remote list is nonempty. -/
theorem is_update_required_ne_nil {s : UState} {l : List ModelInfo}
    (h : is_update_required s l = true) : l ≠ [] := by
  intro hl
  subst hl
  simp [is_update_required] at h

/-! ### Download helpers -/

/-- The three possible outcomes of `download_single_model`: skip because the
file exists, a successful transfer that appends the file, or a propagated
transfer error. -/
theorem dsm_cases (dlOk : String → Bool) (s : UState) (m : ModelInfo) :
    ((m.name ++ safetensorsExt) ∈ s.localFiles ∧
      download_single_model dlOk s m = Except.ok (s, []))
    ∨ ((m.name ++ safetensorsExt) ∉ s.localFiles ∧ dlOk m.file_url = true ∧
      download_single_model dlOk s m =
        Except.ok ({ s with localFiles := s.localFiles ++ [m.name ++ safetensorsExt] },
          [Event.transfer m.name m.file_url]))
    ∨ ((m.name ++ safetensorsExt) ∉ s.localFiles ∧ dlOk m.file_url = false ∧
      download_single_model dlOk s m = Except.error m.file_url) := by
  unfold download_single_model download_file
  by_cases hmem : (m.name ++ safetensorsExt) ∈ s.localFiles
  · exact Or.inl ⟨hmem, by simp [hmem]⟩
  · cases hdl : dlOk m.file_url with
    | true => exact Or.inr (Or.inl ⟨hmem, rfl, by simp [hmem, hdl]⟩)
    | false => exact Or.inr (Or.inr ⟨hmem, rfl, by simp [hmem, hdl]⟩)

/-- Downloading never touches the configuration store. -/
theorem dnm_config (dlOk : String → Bool) : ∀ (l : List ModelInfo) (s : UState),
    (download_new_models dlOk s l).1.config = s.config := by
  intro l
  induction l with
  | nil => intro s; rfl
  | cons m rest ih =>
    intro s
    rcases dsm_cases dlOk s m with ⟨hm, heq⟩ | ⟨hm, hdl, heq⟩ | ⟨hm, hdl, heq⟩
    · simp only [download_new_models, heq]; exact ih s
    · simp only [download_new_models, heq]; exact ih _
    · simp only [download_new_models, heq]

/-- Downloading only ever adds files: every file present before is present
after. -/
theorem dnm_mono (dlOk : String → Bool) : ∀ (l : List ModelInfo) (s : UState)
    (f : String), f ∈ s.localFiles →
    f ∈ (download_new_models dlOk s l).1.localFiles := by
  intro l
  induction l with
  | nil => intro s f hf; exact hf
  | cons m rest ih =>
    intro s f hf
    rcases dsm_cases dlOk s m with ⟨hm, heq⟩ | ⟨hm, hdl, heq⟩ | ⟨hm, hdl, heq⟩
    · simp only [download_new_models, heq]; exact ih s f hf
    · simp only [download_new_models, heq]
      exact ih _ f (List.mem_append_left _ hf)
    · simpa only [download_new_models, heq] using hf

/-- When no download raised, every record of the processed list has its file
present afterwards. -/
theorem dnm_complete (dlOk : String → Bool) : ∀ (l : List ModelInfo) (s : UState),
    (download_new_models dlOk s l).2.2 = none → ∀ m ∈ l,
    (m.name ++ safetensorsExt) ∈ (download_new_models dlOk s l).1.localFiles := by
  intro l
  induction l with
  | nil => intro s _ m hm; cases hm
  | cons a rest ih =>
    intro s herr m hm
    rcases dsm_cases dlOk s a with ⟨hmem, heq⟩ | ⟨hmem, hdl, heq⟩ | ⟨hmem, hdl, heq⟩
    · simp only [download_new_models, heq] at herr ⊢
      rcases List.mem_cons.mp hm with h1 | h2
      · subst h1; exact dnm_mono dlOk rest s _ hmem
      · exact ih s herr m h2
    · simp only [download_new_models, heq] at herr ⊢
      rcases List.mem_cons.mp hm with h1 | h2
      · subst h1
        refine dnm_mono dlOk rest _ _ ?_
        exact List.mem_append_right _ (List.mem_singleton.mpr rfl)
      · exact ih _ herr m h2
    · simp only [download_new_models, heq] at herr
      cases herr

/-- A file already present at the start of the download loop is never the
subject of a transfer event of that loop. -/
theorem dnm_no_transfer_of_present (dlOk : String → Bool) :
    ∀ (l : List ModelInfo) (s : UState) (n u : String),
    (n ++ safetensorsExt) ∈ s.localFiles →
    Event.transfer n u ∉ (download_new_models dlOk s l).2.1 := by
  intro l
  induction l with
  | nil => intro s n u _ hmem; cases hmem
  | cons a rest ih =>
    intro s n u hn hmem
    rcases dsm_cases dlOk s a with ⟨hm, heq⟩ | ⟨hm, hdl, heq⟩ | ⟨hm, hdl, heq⟩
    · simp only [download_new_models, heq, List.nil_append] at hmem
      exact ih s n u hn hmem
    · simp only [download_new_models, heq, List.cons_append, List.nil_append,
        List.mem_cons] at hmem
      rcases hmem with h1 | h2
      · have hna : n = a.name := by
          injection h1
        exact hm (hna ▸ hn)
      · exact ih _ n u (List.mem_append_left _ hn) h2
    · simp only [download_new_models, heq] at hmem
      cases hmem

/-- Every event of the download loop is a transfer event. -/
theorem dnm_events (dlOk : String → Bool) : ∀ (l : List ModelInfo) (s : UState),
    ∀ e ∈ (download_new_models dlOk s l).2.1, ∃ n u, e = Event.transfer n u := by
  intro l
  induction l with
  | nil => intro s e he; cases he
  | cons a rest ih =>
    intro s e he
    rcases dsm_cases dlOk s a with ⟨hm, heq⟩ | ⟨hm, hdl, heq⟩ | ⟨hm, hdl, heq⟩
    · simp only [download_new_models, heq, List.nil_append] at he
      exact ih s e he
    · simp only [download_new_models, heq, List.cons_append, List.nil_append,
        List.mem_cons] at he
      rcases he with h1 | h2
      · exact ⟨a.name, a.file_url, h1⟩
      · exact ih _ e h2
    · simp only [download_new_models, heq] at he
      cases he

/-- When every record's URL transfers successfully, the download loop raises
nothing. -/
theorem dnm_err_none_of_dlOk (dlOk : String → Bool) :
    ∀ (l : List ModelInfo) (s : UState), (∀ m ∈ l, dlOk m.file_url = true) →
    (download_new_models dlOk s l).2.2 = none := by
  intro l
  induction l with
  | nil => intro s _; rfl
  | cons a rest ih =>
    intro s h
    rcases dsm_cases dlOk s a with ⟨hm, heq⟩ | ⟨hm, hdl, heq⟩ | ⟨hm, hdl, heq⟩
    · simp only [download_new_models, heq]
      exact ih s (fun m hm2 => h m (List.mem_cons_of_mem a hm2))
    · simp only [download_new_models, heq]
      exact ih _ (fun m hm2 => h m (List.mem_cons_of_mem a hm2))
    · rw [h a (List.mem_cons_self a rest)] at hdl
      cases hdl

/-! ### Branch analyses of the two passes -/

/-- The five branches of `update_models`: fetch failure, empty combined list,
nothing missing, a download raised mid-pass, and the completed pass. -/
theorem update_models_cases (dlOk : String → Bool) (r1 r2 : SourceResp) (s : UState) :
    (fetch_remote_model_list r1 r2 = none ∧
      update_models dlOk r1 r2 s = (s, [Event.msg couldNotFetchMsg], none))
    ∨ (∃ l, fetch_remote_model_list r1 r2 = some l ∧ l.isEmpty = true ∧
      update_models dlOk r1 r2 s = (s, [Event.msg couldNotFetchMsg], none))
    ∨ (∃ l, fetch_remote_model_list r1 r2 = some l ∧ l.isEmpty = false ∧
      is_update_required s l = false ∧
      update_models dlOk r1 r2 s = (s, [Event.msg noUpdateMsg], none))
    ∨ (∃ l e, fetch_remote_model_list r1 r2 = some l ∧ l.isEmpty = false ∧
      is_update_required s l = true ∧
      (download_new_models dlOk s l).2.2 = some e ∧
      update_models dlOk r1 r2 s =
        ((download_new_models dlOk s l).1, (download_new_models dlOk s l).2.1, some e))
    ∨ (∃ l, fetch_remote_model_list r1 r2 = some l ∧ l.isEmpty = false ∧
      is_update_required s l = true ∧
      (download_new_models dlOk s l).2.2 = none ∧
      update_models dlOk r1 r2 s =
        ({ (download_new_models dlOk s l).1 with
            config := (update_configs (download_new_models dlOk s l).1.config l).1 },
         (download_new_models dlOk s l).2.1
           ++ (update_configs (download_new_models dlOk s l).1.config l).2
           ++ [Event.msg completedMsg], none)) := by
  cases hf : fetch_remote_model_list r1 r2 with
  | none =>
    left
    exact ⟨rfl, by unfold update_models; rw [hf]⟩
  | some l =>
    cases he : l.isEmpty with
    | true =>
      right; left
      exact ⟨l, rfl, he, by unfold update_models; rw [hf]; simp [he]⟩
    | false =>
      cases hr : is_update_required s l with
      | false =>
        right; right; left
        exact ⟨l, rfl, he, hr, by unfold update_models; rw [hf]; simp [he, hr]⟩
      | true =>
        rcases hd : download_new_models dlOk s l with ⟨s1, evs, err⟩
        cases err with
        | some e =>
          right; right; right; left
          refine ⟨l, e, rfl, he, hr, by rw [hd], ?_⟩
          unfold update_models
          rw [hf]
          simp only [he, hr, Bool.false_eq_true, if_false, if_true, hd]
        | none =>
          right; right; right; right
          refine ⟨l, rfl, he, hr, by rw [hd], ?_⟩
          unfold update_models
          rw [hf]
          simp only [he, hr, Bool.false_eq_true, if_false, if_true, hd]

/-- The five branches of `update_single_model`: fetch failure, empty combined
list, name not found, successful download plus merge, and a raised
download. -/
theorem update_single_model_cases (dlOk : String → Bool) (r1 r2 : SourceResp)
    (s : UState) (mid : String) :
    (fetch_remote_model_list r1 r2 = none ∧
      update_single_model dlOk r1 r2 s mid = (s, [Event.msg couldNotFetchMsg], none))
    ∨ (∃ l, fetch_remote_model_list r1 r2 = some l ∧ l.isEmpty = true ∧
      update_single_model dlOk r1 r2 s mid = (s, [Event.msg couldNotFetchMsg], none))
    ∨ (∃ l, fetch_remote_model_list r1 r2 = some l ∧ l.isEmpty = false ∧
      l.find? (fun m => m.name == mid) = none ∧
      update_single_model dlOk r1 r2 s mid = (s, [Event.msg (notFoundMsg mid)], none))
    ∨ (∃ l m s1 e1, fetch_remote_model_list r1 r2 = some l ∧ l.isEmpty = false ∧
      l.find? (fun m2 => m2.name == mid) = some m ∧
      download_single_model dlOk s m = Except.ok (s1, e1) ∧
      update_single_model dlOk r1 r2 s mid =
        ({ s1 with config := (update_config_single_model s1.config m).1 },
         e1 ++ (update_config_single_model s1.config m).2
           ++ [Event.msg (completedOneMsg m.name)], none))
    ∨ (∃ l m e, fetch_remote_model_list r1 r2 = some l ∧ l.isEmpty = false ∧
      l.find? (fun m2 => m2.name == mid) = some m ∧
      download_single_model dlOk s m = Except.error e ∧
      update_single_model dlOk r1 r2 s mid = (s, [], some e)) := by
  cases hf : fetch_remote_model_list r1 r2 with
  | none =>
    left
    exact ⟨rfl, by unfold update_single_model; rw [hf]⟩
  | some l =>
    cases he : l.isEmpty with
    | true =>
      right; left
      exact ⟨l, rfl, he, by unfold update_single_model; rw [hf]; simp [he]⟩
    | false =>
      cases hfind : l.find? (fun m => m.name == mid) with
      | none =>
        right; right; left
        refine ⟨l, rfl, he, hfind, ?_⟩
        unfold update_single_model
        rw [hf]
        simp only [he, Bool.false_eq_true, if_false, hfind]
      | some m =>
        cases hd : download_single_model dlOk s m with
        | ok p =>
          rcases p with ⟨s1, e1⟩
          right; right; right; left
          refine ⟨l, m, s1, e1, rfl, he, hfind, hd, ?_⟩
          unfold update_single_model
          rw [hf]
          simp only [he, Bool.false_eq_true, if_false, hfind, hd]
        | error e =>
          right; right; right; right
          refine ⟨l, m, e, rfl, he, hfind, hd, ?_⟩
          unfold update_single_model
          rw [hf]
          simp only [he, Bool.false_eq_true, if_false, hfind, hd]

/-! ### Claims -/

/-- C1: when the catalog fetch fails, `update_models` aborts the whole pass,
reports the failure with the skip line, and returns with the local directory
and both configuration partitions exactly as they were. -/
theorem C1_fetch_failure_aborts_pass (dlOk : String → Bool) (r1 r2 : SourceResp)
    (s : UState) (h : fetch_remote_model_list r1 r2 = none) :
    update_models dlOk r1 r2 s = (s, [Event.msg couldNotFetchMsg], none) := by
  unfold update_models
  rw [h]

/-- Witness for C1: a network error from the first source at a concrete
state. -/
theorem C1_fetch_failure_aborts_pass_witness :
    update_models allOk SourceResp.err (SourceResp.list [m1]) emptyState
      = (emptyState, [Event.msg couldNotFetchMsg], none) :=
  C1_fetch_failure_aborts_pass allOk SourceResp.err (SourceResp.list [m1])
    emptyState rfl

/-- C9: when every source answers an empty JSON array, both passes take the
`if not remote_model_list` branch: they print the could-not-fetch line and
return with the state untouched; `update_single_model` never reaches its
not-found report. -/
theorem C9_empty_catalog_treated_as_failure (dlOk : String → Bool) (s : UState)
    (mid : String) :
    update_models dlOk (SourceResp.list []) (SourceResp.list []) s
        = (s, [Event.msg couldNotFetchMsg], none) ∧
    update_single_model dlOk (SourceResp.list []) (SourceResp.list []) s mid
        = (s, [Event.msg couldNotFetchMsg], none) := by
  exact ⟨rfl, rfl⟩

/-- C4 counterexample: the first source answers a non-list payload, the
second a list with one missing record; the combined fetch succeeds anyway and
the pass performs a transfer and changes the state, contradicting the claim
that any source's non-list payload aborts the pass without state change. -/
theorem C4_counterexample :
    fetch_remote_model_list SourceResp.nonList (SourceResp.list [m1]) = some [m1] ∧
    Event.transfer "m1" "http://x/m1"
      ∈ (update_models allOk SourceResp.nonList (SourceResp.list [m1]) emptyState).2.1 ∧
    (update_models allOk SourceResp.nonList (SourceResp.list [m1]) emptyState).1
      ≠ emptyState := by
  refine ⟨rfl, ?_, ?_⟩ <;> decide

/-- C4 (amended): a non-list payload from a source is only logged and
skipped; the combined fetch still succeeds with the remaining sources' lists
(possibly empty), while a network error from either source yields `None`. -/
theorem C4_amended_nonlist_payload_skipped (l : List ModelInfo) :
    fetch_remote_model_list SourceResp.nonList (SourceResp.list l) = some l ∧
    fetch_remote_model_list (SourceResp.list l) SourceResp.nonList = some l ∧
    fetch_remote_model_list SourceResp.nonList SourceResp.nonList = some [] ∧
    fetch_remote_model_list SourceResp.err (SourceResp.list l) = none ∧
    fetch_remote_model_list (SourceResp.list l) SourceResp.err = none := by
  exact ⟨rfl, rfl, rfl, rfl, rfl⟩

/-- C3 counterexample: a catalog holding exactly the VAE record `v1` whose
file is already local makes the pass take the no-update branch, so `v1` is
not merged into the VAE partition, contradicting `merged=1`. -/
theorem C3_counterexample :
    (update_models allOk (SourceResp.list [v1]) (SourceResp.list [])
        v1State).1.config.vae_configs.lookup "v1" = none ∧
    (update_models allOk (SourceResp.list [v1]) (SourceResp.list [])
        v1State).2.1 = [Event.msg noUpdateMsg] := by
  constructor <;> decide

/-- C3 (amended): with a nonempty fetched catalog in which no record is
missing locally — the lone-VAE-already-present scenario in particular — the
pass performs zero fetches and also zero merges: it reports that no update is
required and leaves the whole state untouched. -/
theorem C3_amended_no_missing_means_no_merge (dlOk : String → Bool)
    (r1 r2 : SourceResp) (s : UState) (l : List ModelInfo)
    (h1 : fetch_remote_model_list r1 r2 = some l) (h2 : l.isEmpty = false)
    (h3 : is_update_required s l = false) :
    update_models dlOk r1 r2 s = (s, [Event.msg noUpdateMsg], none) := by
  unfold update_models
  rw [h1]
  simp [h2, h3]

/-- Witness for C3 (amended): the spec's own scenario, catalog `[v1]` with
`v1.safetensors` already present. -/
theorem C3_amended_no_missing_means_no_merge_witness :
    update_models allOk (SourceResp.list [v1]) (SourceResp.list []) v1State
      = (v1State, [Event.msg noUpdateMsg], none) :=
  C3_amended_no_missing_means_no_merge allOk (SourceResp.list [v1])
    (SourceResp.list []) v1State [v1] rfl rfl (by decide)

/-- Inversion for a non-raising `download_single_model`: either the file was
present and nothing happened, or it was absent and the transfer succeeded and
appended it. -/
theorem dsm_ok_inv {dlOk : String → Bool} {s : UState} {m : ModelInfo}
    {s1 : UState} {e1 : List Event}
    (h : download_single_model dlOk s m = Except.ok (s1, e1)) :
    ((m.name ++ safetensorsExt) ∈ s.localFiles ∧ s1 = s ∧ e1 = [])
    ∨ ((m.name ++ safetensorsExt) ∉ s.localFiles ∧ dlOk m.file_url = true ∧
      s1 = { s with localFiles := s.localFiles ++ [m.name ++ safetensorsExt] } ∧
      e1 = [Event.transfer m.name m.file_url]) := by
  rcases dsm_cases dlOk s m with ⟨hm, heq⟩ | ⟨hm, hdl, heq⟩ | ⟨hm, hdl, heq⟩
  · rw [heq] at h
    simp only [Except.ok.injEq, Prod.mk.injEq] at h
    exact Or.inl ⟨hm, h.1.symm, h.2.symm⟩
  · rw [heq] at h
    simp only [Except.ok.injEq, Prod.mk.injEq] at h
    exact Or.inr ⟨hm, hdl, h.1.symm, h.2.symm⟩
  · rw [heq] at h
    simp at h

/-- C5: an artifact name already bound in a configuration partition keeps its
stored record through any full pass and any single-artifact pass, whatever
the remote catalog answers. -/
theorem C5_existing_config_entry_never_modified (dlOk : String → Bool)
    (r1 r2 : SourceResp) (s : UState) (mid A : String) (v : ModelInfo) (p : Bool)
    (h : (s.config.part p).lookup A = some v) :
    ((update_models dlOk r1 r2 s).1.config.part p).lookup A = some v ∧
    ((update_single_model dlOk r1 r2 s mid).1.config.part p).lookup A = some v := by
  constructor
  · rcases update_models_cases dlOk r1 r2 s with
      ⟨_, hu⟩ | ⟨l, _, _, hu⟩ | ⟨l, _, _, _, hu⟩ | ⟨l, e, _, _, _, _, hu⟩ |
      ⟨l, _, _, _, _, hu⟩
    · rw [hu]; exact h
    · rw [hu]; exact h
    · rw [hu]; exact h
    · rw [hu]
      have hc := dnm_config dlOk l s
      show (((download_new_models dlOk s l).1.config).part p).lookup A = some v
      rw [hc]
      exact h
    · rw [hu]
      exact uc_preserves l _ p A v (by rw [dnm_config dlOk l s]; exact h)
  · rcases update_single_model_cases dlOk r1 r2 s mid with
      ⟨_, hu⟩ | ⟨l, _, _, hu⟩ | ⟨l, _, _, _, hu⟩ |
      ⟨l, m, s1, e1, _, _, _, hd, hu⟩ | ⟨l, m, e, _, _, _, _, hu⟩
    · rw [hu]; exact h
    · rw [hu]; exact h
    · rw [hu]; exact h
    · rw [hu]
      have hc : s1.config = s.config := by
        rcases dsm_ok_inv hd with ⟨_, hs1, _⟩ | ⟨_, _, hs1, _⟩ <;> rw [hs1]
      exact ucsm_preserves s1.config m p A v (by rw [hc]; exact h)
    · rw [hu]; exact h

/-- Witness for C5: configuration already binds `A` to `mA`, the catalog
offers a record named `A` with different fields; the stored binding
survives both passes. -/
theorem C5_existing_config_entry_never_modified_witness :
    ((update_models allOk (SourceResp.list [mA2]) (SourceResp.list [])
        stateWithA).1.config.part false).lookup "A" = some mA ∧
    ((update_single_model allOk (SourceResp.list [mA2]) (SourceResp.list [])
        stateWithA "A").1.config.part false).lookup "A" = some mA :=
  C5_existing_config_entry_never_modified allOk (SourceResp.list [mA2])
    (SourceResp.list []) stateWithA "A" "A" mA false (by decide)

/-- C6: for an artifact whose destination file is already in the local
directory, neither a full pass nor a single-artifact pass ever starts a
transfer for it, whatever the catalog answers and whatever the remote record
says about its size or URL. -/
theorem C6_existing_file_never_refetched (dlOk : String → Bool)
    (r1 r2 : SourceResp) (s : UState) (mid n u : String)
    (h : (n ++ safetensorsExt) ∈ s.localFiles) :
    Event.transfer n u ∉ (update_models dlOk r1 r2 s).2.1 ∧
    Event.transfer n u ∉ (update_single_model dlOk r1 r2 s mid).2.1 := by
  constructor
  · rcases update_models_cases dlOk r1 r2 s with
      ⟨_, hu⟩ | ⟨l, _, _, hu⟩ | ⟨l, _, _, _, hu⟩ | ⟨l, e, _, _, _, _, hu⟩ |
      ⟨l, _, _, _, _, hu⟩
    · rw [hu]; simp
    · rw [hu]; simp
    · rw [hu]; simp
    · rw [hu]
      exact dnm_no_transfer_of_present dlOk l s n u h
    · rw [hu]
      intro hmem
      simp only [List.mem_append, List.mem_singleton] at hmem
      rcases hmem with (h1 | h2) | h3
      · exact dnm_no_transfer_of_present dlOk l s n u h h1
      · rcases uc_events l _ _ h2 with ⟨m, _, hm | hm⟩ <;> cases hm
      · cases h3
  · rcases update_single_model_cases dlOk r1 r2 s mid with
      ⟨_, hu⟩ | ⟨l, _, _, hu⟩ | ⟨l, _, _, _, hu⟩ |
      ⟨l, m, s1, e1, _, _, _, hd, hu⟩ | ⟨l, m, e, _, _, _, _, hu⟩
    · rw [hu]; simp
    · rw [hu]; simp
    · rw [hu]; simp
    · rw [hu]
      intro hmem
      simp only [List.mem_append, List.mem_singleton] at hmem
      rcases hmem with (h1 | h2) | h3
      · rcases dsm_ok_inv hd with ⟨_, _, he1⟩ | ⟨hnm, _, _, he1⟩
        · rw [he1] at h1; cases h1
        · rw [he1] at h1
          rcases List.mem_singleton.mp h1 with h4
          have hn : n = m.name := by injection h4
          exact hnm (hn ▸ h)
      · rcases ucsm_events _ m _ h2 with hm | hm <;> cases hm
      · cases h3
    · rw [hu]; simp

/-- Witness for C6: `p.safetensors` is already present and the catalog lists
`p` (with a URL) and a genuinely missing `q`; no transfer for `p` occurs in
either pass. -/
theorem C6_existing_file_never_refetched_witness :
    Event.transfer "p" "up"
      ∉ (update_models allOk (SourceResp.list [mP, mQ]) (SourceResp.list [])
          pState).2.1 ∧
    Event.transfer "p" "up"
      ∉ (update_single_model allOk (SourceResp.list [mP, mQ]) (SourceResp.list [])
          pState "p").2.1 :=
  C6_existing_file_never_refetched allOk (SourceResp.list [mP, mQ])
    (SourceResp.list []) pState "p" "p" "up" (by decide)

/-- C2 counterexample: catalog `[A, B, C]` where only the transfer of `B`
fails, from an empty state. The pass's events are exactly the one transfer of
`A`: `C` is never fetched, nothing at all is merged, and the exception
propagates out of the pass — refuting the claim that the pass still attempts
and completes fetch and merge for `A` and `C`. -/
theorem C2_counterexample :
    (update_models failB (SourceResp.list [mA, mB, mC]) (SourceResp.list [])
        emptyState).2.1 = [Event.transfer "A" "uA"] ∧
    (update_models failB (SourceResp.list [mA, mB, mC]) (SourceResp.list [])
        emptyState).1.config = emptyConfig ∧
    (update_models failB (SourceResp.list [mA, mB, mC]) (SourceResp.list [])
        emptyState).2.2 = some "uB" := by
  refine ⟨?_, ?_, ?_⟩ <;> decide

/-- C2 (amended): a transfer failure for one artifact aborts the remainder of
the full pass: the exception propagates, no artifact is merged into either
configuration partition during that pass, and the completion line is never
printed (artifacts before the failing one keep their already-finished
downloads). -/
theorem C2_amended_transfer_failure_aborts_pass (dlOk : String → Bool)
    (r1 r2 : SourceResp) (s : UState) (e n : String)
    (h : (update_models dlOk r1 r2 s).2.2 = some e) :
    (update_models dlOk r1 r2 s).1.config = s.config ∧
    Event.mergeModel n ∉ (update_models dlOk r1 r2 s).2.1 ∧
    Event.mergeVae n ∉ (update_models dlOk r1 r2 s).2.1 ∧
    Event.msg completedMsg ∉ (update_models dlOk r1 r2 s).2.1 := by
  rcases update_models_cases dlOk r1 r2 s with
      ⟨_, hu⟩ | ⟨l, _, _, hu⟩ | ⟨l, _, _, _, hu⟩ | ⟨l, e2, _, _, _, herr, hu⟩ |
      ⟨l, _, _, _, herr, hu⟩
  · rw [hu] at h; simp at h
  · rw [hu] at h; simp at h
  · rw [hu] at h; simp at h
  · rw [hu]
    refine ⟨dnm_config dlOk l s, ?_, ?_, ?_⟩
    all_goals
      intro hmem
      rcases dnm_events dlOk l s _ hmem with ⟨n2, u2, hEq⟩
      cases hEq
  · rw [hu] at h; simp at h

/-- Witness for C2 (amended): the `[A, B, C]` run with `B`'s URL failing. -/
theorem C2_amended_transfer_failure_aborts_pass_witness :
    (update_models failB (SourceResp.list [mA, mB, mC]) (SourceResp.list [])
        emptyState).1.config = emptyState.config ∧
    Event.mergeModel "C" ∉ (update_models failB (SourceResp.list [mA, mB, mC])
        (SourceResp.list []) emptyState).2.1 ∧
    Event.mergeVae "C" ∉ (update_models failB (SourceResp.list [mA, mB, mC])
        (SourceResp.list []) emptyState).2.1 ∧
    Event.msg completedMsg ∉ (update_models failB (SourceResp.list [mA, mB, mC])
        (SourceResp.list []) emptyState).2.1 :=
  C2_amended_transfer_failure_aborts_pass failB (SourceResp.list [mA, mB, mC])
    (SourceResp.list []) emptyState "uB" "C" (by decide)

/-- C7: after a full pass that returned without a raised download, running
the same pass again (same source answers, no external change) leaves the
state exactly as it is and emits no transfer and no merge events: the second
run performs zero additional fetches and zero additional merges. -/
theorem C7_second_pass_performs_nothing (dlOk : String → Bool)
    (r1 r2 : SourceResp) (s s1 : UState) (evs1 : List Event) (n u : String)
    (h : update_models dlOk r1 r2 s = (s1, evs1, none)) :
    (update_models dlOk r1 r2 s1).1 = s1 ∧
    Event.transfer n u ∉ (update_models dlOk r1 r2 s1).2.1 ∧
    Event.mergeModel n ∉ (update_models dlOk r1 r2 s1).2.1 ∧
    Event.mergeVae n ∉ (update_models dlOk r1 r2 s1).2.1 := by
  rcases update_models_cases dlOk r1 r2 s with
      ⟨hf, hu⟩ | ⟨l, hf, he, hu⟩ | ⟨l, hf, he, hr, hu⟩ |
      ⟨l, e2, hf, he, hr, herr, hu⟩ | ⟨l, hf, he, hr, herr, hu⟩
  · rw [hu] at h
    have hs1 : s = s1 := congrArg (fun t => t.1) h
    subst hs1
    have h2 : update_models dlOk r1 r2 s = (s, [Event.msg couldNotFetchMsg], none) := by
      unfold update_models; rw [hf]
    rw [h2]
    exact ⟨rfl, by simp, by simp, by simp⟩
  · rw [hu] at h
    have hs1 : s = s1 := congrArg (fun t => t.1) h
    subst hs1
    have h2 : update_models dlOk r1 r2 s = (s, [Event.msg couldNotFetchMsg], none) := by
      unfold update_models; rw [hf]; simp [he]
    rw [h2]
    exact ⟨rfl, by simp, by simp, by simp⟩
  · rw [hu] at h
    have hs1 : s = s1 := congrArg (fun t => t.1) h
    subst hs1
    have h2 : update_models dlOk r1 r2 s = (s, [Event.msg noUpdateMsg], none) := by
      unfold update_models; rw [hf]; simp [he, hr]
    rw [h2]
    exact ⟨rfl, by simp, by simp, by simp⟩
  · rw [hu] at h
    simp at h
  · rw [hu] at h
    have hs1 : ({ (download_new_models dlOk s l).1 with
        config := (update_configs (download_new_models dlOk s l).1.config l).1 }
        : UState) = s1 := congrArg (fun t => t.1) h
    have hfiles : ∀ m ∈ l, (m.name ++ safetensorsExt) ∈ s1.localFiles := by
      intro m hm
      rw [← hs1]
      exact dnm_complete dlOk l s herr m hm
    have hr2 : is_update_required s1 l = false := is_update_required_eq_false hfiles
    have h2 : update_models dlOk r1 r2 s1 = (s1, [Event.msg noUpdateMsg], none) := by
      unfold update_models; rw [hf]; simp [he, hr2]
    rw [h2]
    exact ⟨rfl, by simp, by simp, by simp⟩

/-- Witness for C7: the catalog `[m1]` from the empty state; the first run
downloads and merges `m1`, the second run changes and emits nothing. -/
theorem C7_second_pass_performs_nothing_witness :
    (update_models allOk (SourceResp.list [m1]) (SourceResp.list []) m1State).1
        = m1State ∧
    Event.transfer "m1" "http://x/m1"
        ∉ (update_models allOk (SourceResp.list [m1]) (SourceResp.list []) m1State).2.1 ∧
    Event.mergeModel "m1"
        ∉ (update_models allOk (SourceResp.list [m1]) (SourceResp.list []) m1State).2.1 ∧
    Event.mergeVae "m1"
        ∉ (update_models allOk (SourceResp.list [m1]) (SourceResp.list []) m1State).2.1 :=
  C7_second_pass_performs_nothing allOk (SourceResp.list [m1]) (SourceResp.list [])
    emptyState m1State
    [Event.transfer "m1" "http://x/m1", Event.mergeModel "m1", Event.msg completedMsg]
    "m1" "http://x/m1" (by decide)

/-- C8: with a nonempty fetched catalog, `update_single_model` keys on the
first record whose name matches. No match: the not-found line is the whole
outcome and neither the directory nor the configuration changes. A match
whose transfer succeeds: afterwards the file is present and the name is
bound in the record's partition (fetch-if-absent and merge-if-absent for
that record alone — every transfer and merge event of the pass names it),
independent of the local-inventory comparison. -/
theorem C8_single_pass_first_match (dlOk : String → Bool) (r1 r2 : SourceResp)
    (s : UState) (mid : String) (l : List ModelInfo)
    (h1 : fetch_remote_model_list r1 r2 = some l) (h2 : l.isEmpty = false) :
    (l.find? (fun m => m.name == mid) = none →
      update_single_model dlOk r1 r2 s mid
        = (s, [Event.msg (notFoundMsg mid)], none)) ∧
    (∀ m, l.find? (fun m2 => m2.name == mid) = some m → dlOk m.file_url = true →
      (((update_single_model dlOk r1 r2 s mid).1.config.part m.vae).lookup
          m.name).isSome ∧
      (m.name ++ safetensorsExt)
          ∈ (update_single_model dlOk r1 r2 s mid).1.localFiles ∧
      (∀ n u2, Event.transfer n u2 ∈ (update_single_model dlOk r1 r2 s mid).2.1 →
        n = m.name) ∧
      (∀ n, Event.mergeModel n ∈ (update_single_model dlOk r1 r2 s mid).2.1 ∨
            Event.mergeVae n ∈ (update_single_model dlOk r1 r2 s mid).2.1 →
        n = m.name)) := by
  constructor
  · intro hfind
    unfold update_single_model
    rw [h1]
    simp only [h2, Bool.false_eq_true, if_false, hfind]
  · intro m hfind hdl
    rcases dsm_cases dlOk s m with ⟨hm, heq⟩ | ⟨hm, hdl2, heq⟩ | ⟨hm, hdl2, heq⟩
    · have hres : update_single_model dlOk r1 r2 s mid =
          ({ s with config := (update_config_single_model s.config m).1 },
           (update_config_single_model s.config m).2
             ++ [Event.msg (completedOneMsg m.name)], none) := by
        unfold update_single_model
        rw [h1]
        simp only [h2, Bool.false_eq_true, if_false, hfind, heq, List.nil_append]
      rw [hres]
      refine ⟨ucsm_member s.config m, hm, ?_, ?_⟩
      · intro n u2 hmem
        simp only [List.mem_append, List.mem_singleton] at hmem
        rcases hmem with hc | hc
        · rcases ucsm_events s.config m _ hc with hx | hx <;> cases hx
        · cases hc
      · intro n hmem
        rcases hmem with hc | hc <;>
          simp only [List.mem_append, List.mem_singleton] at hc <;>
          rcases hc with hc2 | hc2
        · rcases ucsm_events s.config m _ hc2 with hx | hx <;> cases hx <;> rfl
        · cases hc2
        · rcases ucsm_events s.config m _ hc2 with hx | hx <;> cases hx <;> rfl
        · cases hc2
    · have hres : update_single_model dlOk r1 r2 s mid =
          ({ localFiles := s.localFiles ++ [m.name ++ safetensorsExt],
             config := (update_config_single_model s.config m).1 },
           Event.transfer m.name m.file_url
             :: ((update_config_single_model s.config m).2
               ++ [Event.msg (completedOneMsg m.name)]), none) := by
        unfold update_single_model
        rw [h1]
        simp only [h2, Bool.false_eq_true, if_false, hfind, heq, List.cons_append,
          List.nil_append]
      rw [hres]
      refine ⟨ucsm_member s.config m, ?_, ?_, ?_⟩
      · exact List.mem_append_right _ (List.mem_singleton.mpr rfl)
      · intro n u2 hmem
        simp only [List.mem_cons, List.mem_append, List.mem_singleton] at hmem
        rcases hmem with hc | hc | hc | hc
        · injection hc with hn hu
        · rcases ucsm_events s.config m _ hc with hx | hx <;> cases hx
        · cases hc
        · cases hc
      · intro n hmem
        rcases hmem with hc | hc <;>
          simp only [List.mem_cons, List.mem_append, List.mem_singleton] at hc <;>
          rcases hc with hc2 | hc2 | hc2 | hc2
        · cases hc2
        · rcases ucsm_events s.config m _ hc2 with hx | hx <;> cases hx <;> rfl
        · cases hc2
        · cases hc2
        · cases hc2
        · rcases ucsm_events s.config m _ hc2 with hx | hx <;> cases hx <;> rfl
        · cases hc2
        · cases hc2
    · rw [hdl2] at hdl
      cases hdl

/-- Witness for C8: the spec's ghost scenario — the catalog `[m1]` holds no
record named `ghost`, so the single pass only reports not-found and leaves
the state untouched. -/
theorem C8_single_pass_first_match_witness :
    update_single_model allOk (SourceResp.list [m1]) (SourceResp.list [])
        emptyState "ghost"
      = (emptyState, [Event.msg (notFoundMsg "ghost")], none) :=
  (C8_single_pass_first_match allOk (SourceResp.list [m1]) (SourceResp.list [])
    emptyState "ghost" [m1] rfl rfl).1 (by decide)

/-- C10: whenever at least one remote name is missing locally (and every
transfer succeeds), the full pass processes the whole combined list, not just
the missing records: afterwards every record — including those whose files
were already present — has its file in the directory and its name bound in
its own configuration partition. -/
theorem C10_whole_list_processed (dlOk : String → Bool) (r1 r2 : SourceResp)
    (s : UState) (l : List ModelInfo)
    (h1 : fetch_remote_model_list r1 r2 = some l)
    (h2 : is_update_required s l = true)
    (h3 : ∀ m ∈ l, dlOk m.file_url = true) :
    (∀ m ∈ l, (((update_models dlOk r1 r2 s).1.config.part m.vae).lookup
        m.name).isSome) ∧
    (∀ m ∈ l, (m.name ++ safetensorsExt)
        ∈ (update_models dlOk r1 r2 s).1.localFiles) := by
  have hne : l ≠ [] := is_update_required_ne_nil h2
  have he : l.isEmpty = false := by
    cases l with
    | nil => exact absurd rfl hne
    | cons a rest => rfl
  have herr : (download_new_models dlOk s l).2.2 = none :=
    dnm_err_none_of_dlOk dlOk l s h3
  have hres : update_models dlOk r1 r2 s =
      ({ (download_new_models dlOk s l).1 with
          config := (update_configs (download_new_models dlOk s l).1.config l).1 },
       (download_new_models dlOk s l).2.1
         ++ (update_configs (download_new_models dlOk s l).1.config l).2
         ++ [Event.msg completedMsg], none) := by
    rcases hd : download_new_models dlOk s l with ⟨s1, evs, err⟩
    rw [hd] at herr
    simp only at herr
    subst herr
    unfold update_models
    rw [h1]
    simp only [he, h2, Bool.false_eq_true, if_false, if_true, hd]
  rw [hres]
  constructor
  · intro m hm
    exact uc_member l _ m hm
  · intro m hm
    exact dnm_complete dlOk l s herr m hm

/-- Witness for C10: `p.safetensors` already present, `q` missing; the pass
still merges `p` into the model partition and `q`'s file appears. -/
theorem C10_whole_list_processed_witness :
    (((update_models allOk (SourceResp.list [mP, mQ]) (SourceResp.list [])
        pState).1.config.part mP.vae).lookup mP.name).isSome ∧
    (mQ.name ++ safetensorsExt)
        ∈ (update_models allOk (SourceResp.list [mP, mQ]) (SourceResp.list [])
            pState).1.localFiles :=
  ⟨(C10_whole_list_processed allOk (SourceResp.list [mP, mQ]) (SourceResp.list [])
      pState [mP, mQ] rfl (by decide) (by decide)).1 mP (by decide),
   (C10_whole_list_processed allOk (SourceResp.list [mP, mQ]) (SourceResp.list [])
      pState [mP, mQ] rfl (by decide) (by decide)).2 mQ (by decide)⟩
